import Mathlib

/-!
Verification of the PDF image-conversion & compression pipeline (`src/app.py`).

Shallow embedding conventions:
* Strings are `List Char` (Python `str` is a sequence of code points; slicing
  `s[:100]` is `List.take 100`).
* PIL images are modelled symbolically by the inductive `Img`: a rasterized
  page (`raster`), the result of `img.resize((w, h), Image.LANCZOS)`
  (`resized`), and the result of `img.convert("RGB")` (`rgb`).  Width and
  height accessors follow PIL (`resize` sets the new size, `convert` keeps it).
* Python float arithmetic in the resize computation
  (`ratio = max_dim / max(w, h); int(w * ratio)`) is modelled in exact
  arithmetic: `int(w * (m / mx))` is the truncation toward zero of the exact
  rational `w * m / mx`, i.e. Nat division `w * m / mx`.
* Encoded byte buffers produced by external encoders (PIL `save`) are
  modelled symbolically by `RawBytes`, recording exactly the inputs the code
  passes to the encoder; a ZIP archive is modelled by its ordered entry list
  (name, data).
* The external rasterizer `pdf2image.convert_from_bytes` is a parameter
  (`rasterize : Nat → Nat → List Img`, taking the raw PDF bytes' identity and
   the dpi); raw uploaded PDF bytes are identified by a `Nat` token.
* Exceptions (`IndexError` from `processed_pdf_images[0]` on an empty page
  list, any error caught by the per-document `try/except`) are modelled with
  `Except`.
-/

/-- Characters replaced by `_` in `sanitize_filename`
(the regex character class `[\\/:*?"<>|：「」]` at `src/app.py:14`). -/
def forbiddenChars : List Char :=
  ['\\', '/', ':', '*', '?', '\"', '<', '>', '|', '：', '「', '」']

def isForbidden (c : Char) : Bool := forbiddenChars.contains c

/-- The characters matched by Python's `\s` on `str` (used by
`re.sub(r'\s+', '_', s)` at `src/app.py:16`): ASCII whitespace plus the
Unicode whitespace code points. -/
def pyWhitespace : List Char :=
  [' ', '\t', '\n', '\x0b', '\x0c', '\r',
   '\x1c', '\x1d', '\x1e', '\x1f', '\u0085', ' ',
   ' ', ' ', ' ', ' ', ' ', ' ', ' ',
   ' ', ' ', ' ', ' ', ' ',
   ' ', ' ', ' ', ' ', '　']

def isPySpace (c : Char) : Bool := pyWhitespace.contains c

/-- `re.sub(r'[\\/:*?"<>|：「」]', '_', filename)` (src/app.py:14): every
forbidden character is replaced by an underscore. -/
def replaceForbidden (s : List Char) : List Char :=
  s.map fun c => if isForbidden c then '_' else c

/-- Worker for `re.sub(r'\s+', '_', s)`: the flag records whether the previous
character belonged to a whitespace run, so each maximal run of whitespace
contributes exactly one `_`. -/
def collapseWsAux : Bool → List Char → List Char
  | _, [] => []
  | inRun, c :: cs =>
    if isPySpace c then
      (if inRun then collapseWsAux true cs else '_' :: collapseWsAux true cs)
    else c :: collapseWsAux false cs

/-- `re.sub(r'\s+', '_', s)` (src/app.py:16): each maximal whitespace run is
replaced by a single underscore. -/
def collapseWs (s : List Char) : List Char := collapseWsAux false s

/-- `sanitize_filename` (src/app.py:9-18): replace forbidden characters,
collapse whitespace runs, truncate to 100 characters (`s[:100]`). -/
def sanitize_filename (s : List Char) : List Char :=
  (collapseWs (replaceForbidden s)).take 100

/-- Symbolic PIL image: a rasterized PDF page, the result of
`img.resize((w, h), Image.LANCZOS)`, or the result of `img.convert("RGB")`. -/
inductive Img where
  | raster (id : Nat) (w : Nat) (h : Nat)
  | resized (src : Img) (w : Nat) (h : Nat)
  | rgb (src : Img)
deriving DecidableEq, Repr

def Img.width : Img → Nat
  | .raster _ w _ => w
  | .resized _ w _ => w
  | .rgb s => s.width

def Img.height : Img → Nat
  | .raster _ _ h => h
  | .resized _ _ h => h
  | .rgb s => s.height

/-- PIL format string passed to `image.save` for the archive images. -/
inductive PilFormat where
  | JPEG
  | WEBP
deriving DecidableEq, Repr

/-- The sidebar configuration consumed by the pipeline:
`format_option == "WebP"`, `max_dim` (`none` models the "制限なし" choice),
`dpi_setting`, `quality_setting`. -/
structure Config where
  formatWebp : Bool
  maxDim : Option Nat
  dpi : Nat
  quality : Nat
deriving DecidableEq, Repr

/-- `ext = "webp" if format_option == "WebP" else "jpg"` (src/app.py:107). -/
def extStr (cfg : Config) : List Char :=
  if cfg.formatWebp then ("webp").data else ("jpg").data

/-- `pil_format = "WEBP" if format_option == "WebP" else "JPEG"` (src/app.py:108). -/
def pilFormat (cfg : Config) : PilFormat :=
  if cfg.formatWebp then PilFormat.WEBP else PilFormat.JPEG

/-- Symbolic encoder output: `RawBytes.pdfEnc pages` is the buffer written by
`processed_pdf_images[0].save(..., append_images=..., format='PDF',
optimize=True)` (src/app.py:96-102); `RawBytes.imgEnc img fmt quality
progressive` is the buffer written by `image.save(img_byte_arr,
format=pil_format, quality=..., optimize=True[, progressive=True])`
(src/app.py:121-126).  `optimize=True` is passed unconditionally at both
sites and is therefore not a parameter. -/
inductive RawBytes where
  | pdfEnc (pages : List Img)
  | imgEnc (img : Img) (fmt : PilFormat) (quality : Nat) (progressive : Bool)
deriving DecidableEq, Repr

/-- The resize computation of the compressed-PDF loop (src/app.py:88-92):
`if max_dim != "制限なし": w, h = img.size; if max(w, h) > max_dim:
ratio = max_dim / max(w, h); img = img.resize((int(w*ratio), int(h*ratio)),
Image.LANCZOS)`.  Exact-arithmetic model of the float computation:
`int(w * (m / mx)) = w * m / mx` (Nat division truncates toward zero). -/
def resizePdfStep (maxDim : Option Nat) (img : Img) : Img :=
  match maxDim with
  | none => img
  | some m =>
    if max img.width img.height > m then
      Img.resized img (img.width * m / max img.width img.height)
        (img.height * m / max img.width img.height)
    else img

/-- The resize computation of the archive-image loop (src/app.py:115-119),
translated independently from its own site; textually the same algorithm as
`resizePdfStep`. -/
def resizeArchiveStep (maxDim : Option Nat) (img : Img) : Img :=
  match maxDim with
  | none => img
  | some m =>
    if max img.width img.height > m then
      Img.resized img (img.width * m / max img.width img.height)
        (img.height * m / max img.width img.height)
    else img

/-- One iteration of the compressed-PDF loop body (src/app.py:87-93): resize,
then `img.convert("RGB")`. -/
def processPdfImage (maxDim : Option Nat) (img : Img) : Img :=
  Img.rgb (resizePdfStep maxDim img)

/-- Python `f"{n:03}"`: decimal digits left-padded with zeros to width 3. -/
def pad3 (n : Nat) : List Char :=
  List.replicate (3 - (Nat.toDigits 10 n).length) '0' ++ Nat.toDigits 10 n

/-- One per-page ZIP entry (src/app.py:114-128): the archive-path resize, the
encode with the request's quality (progressive iff JPEG), and the entry name
`f"{sanitized_base_name}_p_{i + 1:03}.{ext}"` built from the sanitized base
name and the 0-based loop index `i`. -/
def pageEntry (cfg : Config) (sanBase : List Char) (i : Nat) (img : Img) :
    List Char × RawBytes :=
  (sanBase ++ ("_p_").data ++ pad3 (i + 1) ++ ('.' :: extStr cfg),
   RawBytes.imgEnc (resizeArchiveStep cfg.maxDim img) (pilFormat cfg) cfg.quality
     (pilFormat cfg == PilFormat.JPEG))

/-- The full entry list of the produced ZIP (src/app.py:110-128): first the
compressed PDF under `f"{base_file_name}_compressed.pdf"` (note: the code uses
the raw `base_file_name` here, not `sanitize_filename(base_file_name)`), then
one `pageEntry` per rasterized page, in page order. -/
def zipEntries (cfg : Config) (base : List Char) (pdfB : RawBytes)
    (images : List Img) : List (List Char × RawBytes) :=
  (base ++ ("_compressed.pdf").data, pdfB) ::
    images.enum.map fun p => pageEntry cfg (sanitize_filename base) p.1 p.2

/-- `os.path.splitext(name)[0]` (src/app.py:72) for a browser-supplied file
name (no path separators): drop the suffix from the last dot, unless every
character before that dot is itself a dot (then there is no extension). -/
def splitextBase (name : List Char) : List Char :=
  match ((name.enum.filter fun p => p.2 == '.').map Prod.fst).getLast? with
  | none => name
  | some i => if (name.take i).any (fun c => c != '.') then name.take i else name

/-- The record stored in `st.session_state['conversion_results']` on success
(src/app.py:137-145).  The ZIP buffer is modelled by its entry list. -/
structure ConversionResult where
  final_zip_bytes : List (List Char × RawBytes)
  compressed_pdf_bytes : RawBytes
  base_file_name : List Char
  num_pages : Nat
  width : Nat
  height : Nat
  formatWebp : Bool
deriving DecidableEq, Repr

/-- One document's conversion, the body of the `try` block
(src/app.py:72-145): rasterize, build the resized RGB page list, encode the
compressed PDF (`processed_pdf_images[0]` raises `IndexError` on an empty
list, giving the error branch), build the ZIP entries, and assemble the
result record. -/
def convertDocument (rasterize : Nat → Nat → List Img) (cfg : Config)
    (name : List Char) (pdfBytes : Nat) : Except (List Char) ConversionResult :=
  let base := splitextBase name
  let images := rasterize pdfBytes cfg.dpi
  let processed := images.map (processPdfImage cfg.maxDim)
  match processed with
  | [] => Except.error (("list index out of range").data)
  | p0 :: ps =>
    let compressedPdf := RawBytes.pdfEnc (p0 :: ps)
    Except.ok
      { final_zip_bytes := zipEntries cfg base compressedPdf images
        compressed_pdf_bytes := compressedPdf
        base_file_name := sanitize_filename base
        num_pages := images.length
        width := p0.width
        height := p0.height
        formatWebp := cfg.formatWebp }

/-- One uploaded file: its name and the identity of its raw bytes. -/
structure Document where
  name : List Char
  pdfBytes : Nat
deriving DecidableEq, Repr

/-- Python dict assignment
`st.session_state['conversion_results'][name] = res` on an insertion-ordered
association list: replace in place if the key is present, else append. -/
def storeResult : List (List Char × ConversionResult) → List Char →
    ConversionResult → List (List Char × ConversionResult)
  | [], k, v => [(k, v)]
  | (k1, v1) :: rest, k, v =>
    if k1 = k then (k, v) :: rest else (k1, v1) :: storeResult rest k v

/-- One iteration of the batch loop (src/app.py:70-149): the document is
converted inside its own `try/except`; on success the result is stored under
the file's name, on failure (`except Exception`, src/app.py:148-149) nothing
is stored. -/
def batchStep (rasterize : Nat → Nat → List Img) (cfg : Config)
    (acc : List (List Char × ConversionResult)) (doc : Document) :
    List (List Char × ConversionResult) :=
  match convertDocument rasterize cfg doc.name doc.pdfBytes with
  | Except.ok r => storeResult acc doc.name r
  | Except.error _ => acc

/-- The batch loop `for uploaded_file in uploaded_files` (src/app.py:70-149),
starting from the freshly cleared result store (src/app.py:68). -/
def processBatch (rasterize : Nat → Nat → List Img) (cfg : Config)
    (docs : List Document) : List (List Char × ConversionResult) :=
  docs.foldl (batchStep rasterize cfg) []

/-- The page list a reader of a compressed-PDF buffer decodes: the pages the
code passed to `save(format='PDF')`. -/
def pdfPages : RawBytes → List Img
  | .pdfEnc ps => ps
  | .imgEnc _ _ _ _ => []

/-- The image a reader of an encoded page buffer decodes. -/
def encImage : RawBytes → Option Img
  | .pdfEnc _ => none
  | .imgEnc i _ _ _ => some i

instance {ε α : Type} [DecidableEq ε] [DecidableEq α] : DecidableEq (Except ε α) :=
  fun a b =>
    match a, b with
    | Except.ok x, Except.ok y =>
      if h : x = y then isTrue (h ▸ rfl)
      else isFalse fun hc => h (Except.ok.inj hc)
    | Except.error x, Except.error y =>
      if h : x = y then isTrue (h ▸ rfl)
      else isFalse fun hc => h (Except.error.inj hc)
    | Except.ok _, Except.error _ => isFalse fun hc => Except.noConfusion hc
    | Except.error _, Except.ok _ => isFalse fun hc => Except.noConfusion hc

theorem mem_collapseWsAux {c : Char} :
    ∀ (s : List Char) (b : Bool), c ∈ collapseWsAux b s →
      c = '_' ∨ (c ∈ s ∧ isPySpace c = false)
  | [], b, h => by simp [collapseWsAux] at h
  | a :: s, b, h => by
    by_cases ha : isPySpace a
    · simp only [collapseWsAux, ha, if_true] at h
      rcases b with _ | _
      · simp only [if_neg Bool.false_ne_true] at h
        rcases List.mem_cons.mp h with h1 | h1
        · exact Or.inl h1
        · rcases mem_collapseWsAux s true h1 with h2 | h2
          · exact Or.inl h2
          · exact Or.inr ⟨List.mem_cons_of_mem _ h2.1, h2.2⟩
      · simp only [if_pos rfl] at h
        rcases mem_collapseWsAux s true h with h2 | h2
        · exact Or.inl h2
        · exact Or.inr ⟨List.mem_cons_of_mem _ h2.1, h2.2⟩
    · simp only [collapseWsAux, ha, if_false] at h
      rcases List.mem_cons.mp h with h1 | h1
      · exact Or.inr ⟨h1 ▸ List.mem_cons_self _ _, h1 ▸ Bool.of_not_eq_true ha⟩
      · rcases mem_collapseWsAux s false h1 with h2 | h2
        · exact Or.inl h2
        · exact Or.inr ⟨List.mem_cons_of_mem _ h2.1, h2.2⟩

theorem collapseWsAux_of_no_space :
    ∀ (s : List Char), (∀ c ∈ s, isPySpace c = false) → ∀ b, collapseWsAux b s = s
  | [], _, _ => rfl
  | a :: s, h, b => by
    have ha : isPySpace a = false := h a (List.mem_cons_self _ _)
    simp only [collapseWsAux, ha, Bool.false_eq_true, if_false]
    rw [collapseWsAux_of_no_space s (fun c hc => h c (List.mem_cons_of_mem _ hc))]

theorem replaceForbidden_of_no_forbidden :
    ∀ (s : List Char), (∀ c ∈ s, isForbidden c = false) → replaceForbidden s = s
  | [], _ => rfl
  | a :: s, h => by
    have ha : isForbidden a = false := h a (List.mem_cons_self _ _)
    show (if isForbidden a = true then '_' else a) :: replaceForbidden s = a :: s
    rw [ha, if_neg Bool.false_ne_true,
      replaceForbidden_of_no_forbidden s (fun c hc => h c (List.mem_cons_of_mem _ hc))]

theorem mem_replaceForbidden {c : Char} {s : List Char}
    (h : c ∈ replaceForbidden s) : isForbidden c = false := by
  unfold replaceForbidden at h
  rcases List.mem_map.mp h with ⟨a, _, ha⟩
  by_cases hf : isForbidden a
  · rw [if_pos hf] at ha
    rw [← ha]
    decide
  · rw [if_neg hf] at ha
    rw [← ha]
    exact Bool.of_not_eq_true hf

theorem sanitize_no_forbidden {c : Char} {s : List Char}
    (h : c ∈ sanitize_filename s) : isForbidden c = false := by
  have h1 : c ∈ collapseWsAux false (replaceForbidden s) :=
    List.take_subset _ _ h
  rcases mem_collapseWsAux _ _ h1 with h2 | h2
  · rw [h2]; decide
  · exact mem_replaceForbidden h2.1

theorem sanitize_no_space {c : Char} {s : List Char}
    (h : c ∈ sanitize_filename s) : isPySpace c = false := by
  have h1 : c ∈ collapseWsAux false (replaceForbidden s) :=
    List.take_subset _ _ h
  rcases mem_collapseWsAux _ _ h1 with h2 | h2
  · rw [h2]; decide
  · exact h2.2

theorem sanitize_length_le (s : List Char) : (sanitize_filename s).length ≤ 100 := by
  unfold sanitize_filename
  rw [List.length_take]
  exact min_le_left _ _

theorem sanitize_idem (s : List Char) :
    sanitize_filename (sanitize_filename s) = sanitize_filename s := by
  conv_lhs => rw [sanitize_filename]
  rw [replaceForbidden_of_no_forbidden _ (fun c hc => sanitize_no_forbidden hc),
    collapseWs, collapseWsAux_of_no_space _ (fun c hc => sanitize_no_space hc),
    List.take_of_length_le (sanitize_length_le s)]

/-- Claim C7: `sanitize_filename` is deterministic and idempotent, its output
contains no forbidden character and no whitespace (every whitespace run was
collapsed to a single underscore), and its length is at most 100. -/
theorem c7_sanitize_filename_properties (s t : List Char) :
    (s = t → sanitize_filename s = sanitize_filename t) ∧
    sanitize_filename (sanitize_filename s) = sanitize_filename s ∧
    (∀ c ∈ sanitize_filename s, isForbidden c = false ∧ isPySpace c = false) ∧
    (sanitize_filename s).length ≤ 100 :=
  ⟨fun h => h ▸ rfl, sanitize_idem s,
   fun _ hc => ⟨sanitize_no_forbidden hc, sanitize_no_space hc⟩,
   sanitize_length_le s⟩

/-- Witness for C7 at the concrete input "a: b<c>" (sanitized to "a__b_c_"). -/
theorem c7_sanitize_filename_properties_witness :
    sanitize_filename (("a: b<c>").data) =
      ('a' :: '_' :: '_' :: 'b' :: '_' :: 'c' :: '_' :: []) ∧
    sanitize_filename (sanitize_filename (("a: b<c>").data)) =
      sanitize_filename (("a: b<c>").data) ∧
    (sanitize_filename (("a: b<c>").data)).length ≤ 100 :=
  ⟨by decide,
   (c7_sanitize_filename_properties (("a: b<c>").data) (("a: b<c>").data)).2.1,
   (c7_sanitize_filename_properties (("a: b<c>").data) (("a: b<c>").data)).2.2.2⟩

theorem resize_dim_le (w h m : Nat) (hm : m < max w h) :
    w * m / max w h ≤ m ∧ h * m / max w h ≤ m := by
  have hmx : 0 < max w h := Nat.lt_of_le_of_lt (Nat.zero_le m) hm
  constructor
  · calc w * m / max w h ≤ max w h * m / max w h :=
          Nat.div_le_div_right (Nat.mul_le_mul_right m (le_max_left w h))
      _ = m := Nat.mul_div_cancel_left m hmx
  · calc h * m / max w h ≤ max w h * m / max w h :=
          Nat.div_le_div_right (Nat.mul_le_mul_right m (le_max_right w h))
      _ = m := Nat.mul_div_cancel_left m hmx

theorem lt_div_succ_mul (a b : Nat) (hb : 0 < b) : a < (a / b + 1) * b :=
  (Nat.div_lt_iff_lt_mul hb).mp (Nat.lt_succ_self _)

theorem resizePdfStep_unlimited (img : Img) : resizePdfStep none img = img := rfl

theorem resizePdfStep_within (img : Img) (m : Nat)
    (hm : max img.width img.height ≤ m) : resizePdfStep (some m) img = img := by
  simp only [resizePdfStep, gt_iff_lt]
  rw [if_neg (Nat.not_lt.mpr hm)]

theorem resizePdfStep_shrink (img : Img) (m : Nat)
    (hm : m < max img.width img.height) :
    resizePdfStep (some m) img =
      Img.resized img (img.width * m / max img.width img.height)
        (img.height * m / max img.width img.height) := by
  simp only [resizePdfStep, gt_iff_lt]
  rw [if_pos hm]

/-- Claim C2: the resize policy of the compressed-PDF loop: an absent bound or
an image already within the bound is returned unchanged (no upscaling);
otherwise each dimension is the exact scaled value `dim * m / longSide`
truncated toward zero, the output long side is at most the bound, and each
output dimension is within one pixel (below) of the exact scaled value. -/
theorem c2_resize_policy (img : Img) :
    resizePdfStep none img = img ∧
    (∀ m : Nat, max img.width img.height ≤ m → resizePdfStep (some m) img = img) ∧
    (∀ m : Nat, m < max img.width img.height →
      (resizePdfStep (some m) img).width = img.width * m / max img.width img.height ∧
      (resizePdfStep (some m) img).height = img.height * m / max img.width img.height ∧
      max (resizePdfStep (some m) img).width (resizePdfStep (some m) img).height ≤ m ∧
      (resizePdfStep (some m) img).width * max img.width img.height ≤ img.width * m ∧
      img.width * m < ((resizePdfStep (some m) img).width + 1) * max img.width img.height ∧
      (resizePdfStep (some m) img).height * max img.width img.height ≤ img.height * m ∧
      img.height * m < ((resizePdfStep (some m) img).height + 1) * max img.width img.height) := by
  refine ⟨rfl, fun m hm => resizePdfStep_within img m hm, fun m hm => ?_⟩
  have hmx : 0 < max img.width img.height := Nat.lt_of_le_of_lt (Nat.zero_le m) hm
  rw [resizePdfStep_shrink img m hm]
  refine ⟨rfl, rfl, ?_, Nat.div_mul_le_self _ _, lt_div_succ_mul _ _ hmx,
    Nat.div_mul_le_self _ _, lt_div_succ_mul _ _ hmx⟩
  show max (img.width * m / max img.width img.height)
      (img.height * m / max img.width img.height) ≤ m
  exact max_le (resize_dim_le _ _ _ hm).1 (resize_dim_le _ _ _ hm).2

/-- Witness for C2: a 3000 x 2000 page is unchanged under bound 5000 and has
long side at most 1920 under bound 1920. -/
theorem c2_resize_policy_witness :
    resizePdfStep (some 5000) (Img.raster 0 3000 2000) = Img.raster 0 3000 2000 ∧
    max (resizePdfStep (some 1920) (Img.raster 0 3000 2000)).width
      (resizePdfStep (some 1920) (Img.raster 0 3000 2000)).height ≤ 1920 :=
  ⟨(c2_resize_policy (Img.raster 0 3000 2000)).2.1 5000 (by decide),
   ((c2_resize_policy (Img.raster 0 3000 2000)).2.2 1920 (by decide)).2.2.1⟩

/-- Claim C8: applying the resize policy a second time with the same bound
leaves the image unchanged. -/
theorem c8_resize_idempotent (d : Option Nat) (img : Img) :
    resizePdfStep d (resizePdfStep d img) = resizePdfStep d img := by
  cases d with
  | none => rfl
  | some m =>
    by_cases hm : m < max img.width img.height
    · rw [resizePdfStep_shrink img m hm]
      apply resizePdfStep_within
      show max (img.width * m / max img.width img.height)
          (img.height * m / max img.width img.height) ≤ m
      exact max_le (resize_dim_le _ _ _ hm).1 (resize_dim_le _ _ _ hm).2
    · rw [resizePdfStep_within img m (Nat.not_lt.mp hm),
        resizePdfStep_within img m (Nat.not_lt.mp hm)]

/-- Claim C9 as stated is false: the 1 x 2000 page and positive bound 1024 are
valid inputs, yet the resize computation truncates the output width to 0. -/
theorem c9_counterexample :
    0 < (Img.raster 0 1 2000).width ∧ 0 < (Img.raster 0 1 2000).height ∧
    (0 : Nat) < 1024 ∧ (resizePdfStep (some 1024) (Img.raster 0 1 2000)).width = 0 := by
  decide

/-- Claim C9 (amended): the resize computation is a total function with no
error branch, and for every image with positive dimensions and positive bound
the output long side is positive; both output dimensions are positive exactly
when the image is already within the bound or shortSide * maxDimension is at
least longSide (extreme aspect ratios truncate the short side to zero). -/
theorem c9_amended_resize_positivity (img : Img) (m : Nat)
    (hw : 0 < img.width) (hh : 0 < img.height) (hm : 0 < m) :
    0 < max (resizePdfStep (some m) img).width (resizePdfStep (some m) img).height ∧
    ((0 < (resizePdfStep (some m) img).width ∧ 0 < (resizePdfStep (some m) img).height) ↔
      (max img.width img.height ≤ m ∨
        max img.width img.height ≤ min img.width img.height * m)) := by
  by_cases hcase : m < max img.width img.height
  · rw [resizePdfStep_shrink img m hcase]
    have hmx : 0 < max img.width img.height := Nat.lt_of_le_of_lt (Nat.zero_le m) hcase
    have hmxne : max img.width img.height ≠ 0 := Nat.pos_iff_ne_zero.mp hmx
    have hwpos : (0 < img.width * m / max img.width img.height) ↔
        max img.width img.height ≤ img.width * m := Nat.div_pos_iff hmxne
    have hhpos : (0 < img.height * m / max img.width img.height) ↔
        max img.width img.height ≤ img.height * m := Nat.div_pos_iff hmxne
    constructor
    · show 0 < max (img.width * m / max img.width img.height)
        (img.height * m / max img.width img.height)
      rcases le_total img.width img.height with hwh | hwh
      · rw [max_eq_right hwh]
        have : img.height * m / img.height = m := Nat.mul_div_cancel_left m hh
        calc 0 < m := hm
          _ = img.height * m / img.height := this.symm
          _ ≤ _ := le_max_right _ _
      · rw [max_eq_left hwh]
        have : img.width * m / img.width = m := Nat.mul_div_cancel_left m hw
        calc 0 < m := hm
          _ = img.width * m / img.width := this.symm
          _ ≤ _ := le_max_left _ _
    · show (0 < img.width * m / max img.width img.height ∧
          0 < img.height * m / max img.width img.height) ↔ _
      rw [hwpos, hhpos]
      constructor
      · intro hx
        refine Or.inr ?_
        rcases le_total img.width img.height with hwh | hwh
        · rw [min_eq_left hwh]; exact hx.1
        · rw [min_eq_right hwh]; exact hx.2
      · intro hx
        rcases hx with hx | hx
        · exact absurd hcase (Nat.not_lt.mpr hx)
        · rcases le_total img.width img.height with hwh | hwh
          · rw [min_eq_left hwh] at hx
            exact ⟨hx, le_trans hx (Nat.mul_le_mul_right m hwh)⟩
          · rw [min_eq_right hwh] at hx
            exact ⟨le_trans hx (Nat.mul_le_mul_right m hwh), hx⟩
  · rw [resizePdfStep_within img m (Nat.not_lt.mp hcase)]
    exact ⟨Nat.lt_of_lt_of_le hw (le_max_left _ _),
      iff_of_true ⟨hw, hh⟩ (Or.inl (Nat.not_lt.mp hcase))⟩

/-- Witness for the amended C9 at a 3000 x 2000 page with bound 1920. -/
theorem c9_amended_resize_positivity_witness :
    0 < max (resizePdfStep (some 1920) (Img.raster 0 3000 2000)).width
      (resizePdfStep (some 1920) (Img.raster 0 3000 2000)).height ∧
    ((0 < (resizePdfStep (some 1920) (Img.raster 0 3000 2000)).width ∧
        0 < (resizePdfStep (some 1920) (Img.raster 0 3000 2000)).height) ↔
      (max (Img.raster 0 3000 2000).width (Img.raster 0 3000 2000).height ≤ 1920 ∨
        max (Img.raster 0 3000 2000).width (Img.raster 0 3000 2000).height ≤
          min (Img.raster 0 3000 2000).width (Img.raster 0 3000 2000).height * 1920)) :=
  c9_amended_resize_positivity (Img.raster 0 3000 2000) 1920 (by decide) (by decide)
    (by decide)

theorem convertDocument_ok {rasterize : Nat → Nat → List Img} {cfg : Config}
    {name : List Char} {pdf : Nat} {r : ConversionResult}
    (h : convertDocument rasterize cfg name pdf = Except.ok r) :
    rasterize pdf cfg.dpi ≠ [] ∧
    r.compressed_pdf_bytes =
      RawBytes.pdfEnc ((rasterize pdf cfg.dpi).map (processPdfImage cfg.maxDim)) ∧
    r.final_zip_bytes =
      zipEntries cfg (splitextBase name) r.compressed_pdf_bytes (rasterize pdf cfg.dpi) ∧
    r.base_file_name = sanitize_filename (splitextBase name) ∧
    r.num_pages = (rasterize pdf cfg.dpi).length ∧
    r.formatWebp = cfg.formatWebp := by
  simp only [convertDocument] at h
  cases hi : (rasterize pdf cfg.dpi).map (processPdfImage cfg.maxDim) with
  | nil =>
    rw [hi] at h
    exact absurd h (by simp)
  | cons p0 ps =>
    rw [hi] at h
    injection h with h2
    subst h2
    refine ⟨?_, rfl, rfl, rfl, rfl, rfl⟩
    intro he
    rw [he] at hi
    simp at hi

theorem zipEntries_length (cfg : Config) (base : List Char) (pdfB : RawBytes)
    (images : List Img) :
    (zipEntries cfg base pdfB images).length = images.length + 1 := by
  simp [zipEntries, List.enum_length]

theorem zipEntries_head (cfg : Config) (base : List Char) (pdfB : RawBytes)
    (images : List Img) :
    (zipEntries cfg base pdfB images)[0]? =
      some (base ++ ("_compressed.pdf").data, pdfB) := by
  simp [zipEntries]

theorem zipEntries_get_succ (cfg : Config) (base : List Char) (pdfB : RawBytes)
    (images : List Img) (i : Nat) :
    (zipEntries cfg base pdfB images)[i + 1]? =
      (images[i]?).map fun x => pageEntry cfg (sanitize_filename base) i x := by
  simp only [zipEntries, List.getElem?_cons_succ, List.getElem?_map, List.getElem?_enum]
  cases images[i]? <;> rfl

/-- Claim C4: a successful conversion's ZIP has exactly `pageCount + 1`
entries: the compressed-PDF entry first, then one image entry per page in
document page order, where page `i` (0-based) is stored under the sanitized
base name, the 1-based index `i + 1` zero-padded to width 3, and extension
`webp` for WebP output and `jpg` for JPEG output. -/
theorem c4_zip_archive_shape (rasterize : Nat → Nat → List Img) (cfg : Config)
    (name : List Char) (pdf : Nat) (r : ConversionResult)
    (h : convertDocument rasterize cfg name pdf = Except.ok r) :
    r.final_zip_bytes.length = r.num_pages + 1 ∧
    r.final_zip_bytes[0]? =
      some (splitextBase name ++ ("_compressed.pdf").data, r.compressed_pdf_bytes) ∧
    (∀ (i : Nat) (x : Img), (rasterize pdf cfg.dpi)[i]? = some x →
      r.final_zip_bytes[i + 1]? = some
        (sanitize_filename (splitextBase name) ++ ("_p_").data ++ pad3 (i + 1) ++
            ('.' :: extStr cfg),
          RawBytes.imgEnc (resizeArchiveStep cfg.maxDim x) (pilFormat cfg) cfg.quality
            (pilFormat cfg == PilFormat.JPEG))) ∧
    extStr cfg = (if cfg.formatWebp then ("webp").data else ("jpg").data) := by
  obtain ⟨-, -, hz, -, hn, -⟩ := convertDocument_ok h
  refine ⟨?_, ?_, ?_, rfl⟩
  · rw [hz, zipEntries_length, hn]
  · rw [hz, zipEntries_head]
  · intro i x hx
    rw [hz, zipEntries_get_succ, hx]
    rfl

/-- Witness for C4: a one-page document "d.pdf" yields a two-entry ZIP whose
second entry is the page image "d_p_001.webp". -/
theorem c4_zip_archive_shape_witness :
    (ConversionResult.mk
        [((("d_compressed.pdf").data), RawBytes.pdfEnc [Img.rgb (Img.raster 0 5 5)]),
          ((("d_p_001.webp").data),
            RawBytes.imgEnc (Img.raster 0 5 5) PilFormat.WEBP 85 false)]
        (RawBytes.pdfEnc [Img.rgb (Img.raster 0 5 5)]) (("d").data) 1 5 5
        true).final_zip_bytes.length =
      (ConversionResult.mk
        [((("d_compressed.pdf").data), RawBytes.pdfEnc [Img.rgb (Img.raster 0 5 5)]),
          ((("d_p_001.webp").data),
            RawBytes.imgEnc (Img.raster 0 5 5) PilFormat.WEBP 85 false)]
        (RawBytes.pdfEnc [Img.rgb (Img.raster 0 5 5)]) (("d").data) 1 5 5
        true).num_pages + 1 :=
  (c4_zip_archive_shape (fun _ _ => [Img.raster 0 5 5]) ⟨true, none, 200, 85⟩
    (("d.pdf").data) 0 _ (by decide)).1

/-- Claim C5: an empty rasterizer output makes the conversion fail at the
document boundary (the `IndexError` of `processed_pdf_images[0]`, caught by
the per-document handler) instead of producing an empty archive, and every
successful conversion reports at least one page. -/
theorem c5_zero_page_document_errors (rasterize : Nat → Nat → List Img)
    (cfg : Config) (name : List Char) (pdf : Nat) :
    (rasterize pdf cfg.dpi = [] →
      convertDocument rasterize cfg name pdf =
        Except.error (("list index out of range").data)) ∧
    (∀ r : ConversionResult, convertDocument rasterize cfg name pdf = Except.ok r →
      1 ≤ r.num_pages) := by
  constructor
  · intro he
    simp only [convertDocument, he, List.map_nil]
  · intro r h
    obtain ⟨hne, -, -, -, hn, -⟩ := convertDocument_ok h
    rw [hn]
    exact Nat.one_le_iff_ne_zero.mpr fun h0 => hne (List.length_eq_zero.mp h0)

/-- Witness for C5: a rasterizer returning no pages errors, and the one-page
conversion of "d.pdf" reports one page. -/
theorem c5_zero_page_document_errors_witness :
    convertDocument (fun _ _ => []) ⟨true, none, 200, 85⟩ (("d.pdf").data) 0 =
      Except.error (("list index out of range").data) ∧
    1 ≤ (ConversionResult.mk
        [((("d_compressed.pdf").data), RawBytes.pdfEnc [Img.rgb (Img.raster 0 5 5)]),
          ((("d_p_001.webp").data),
            RawBytes.imgEnc (Img.raster 0 5 5) PilFormat.WEBP 85 false)]
        (RawBytes.pdfEnc [Img.rgb (Img.raster 0 5 5)]) (("d").data) 1 5 5
        true).num_pages :=
  ⟨(c5_zero_page_document_errors (fun _ _ => []) ⟨true, none, 200, 85⟩
      (("d.pdf").data) 0).1 rfl,
    (c5_zero_page_document_errors (fun _ _ => [Img.raster 0 5 5])
      ⟨true, none, 200, 85⟩ (("d.pdf").data) 0).2 _ (by decide)⟩

/-- Claim C3: the two independently written resize computations (compressed-PDF
loop and archive-image loop) agree on output dimensions, and consequently in
every successful conversion the `i`-th page embedded in the compressed PDF and
the image in the `i`-th per-page archive entry have the same width and
height. -/
theorem c3_resize_paths_agree :
    (∀ (d : Option Nat) (img : Img),
      (resizePdfStep d img).width = (resizeArchiveStep d img).width ∧
      (resizePdfStep d img).height = (resizeArchiveStep d img).height) ∧
    (∀ (rasterize : Nat → Nat → List Img) (cfg : Config) (name : List Char)
      (pdf : Nat) (r : ConversionResult),
      convertDocument rasterize cfg name pdf = Except.ok r →
      ∀ (i : Nat) (pg : Img) (e : List Char × RawBytes),
        (pdfPages r.compressed_pdf_bytes)[i]? = some pg →
        r.final_zip_bytes[i + 1]? = some e →
        ∃ aimg : Img, encImage e.2 = some aimg ∧
          pg.width = aimg.width ∧ pg.height = aimg.height) := by
  constructor
  · intro d img
    exact ⟨rfl, rfl⟩
  · intro rasterize cfg name pdf r h i pg e hpg he
    obtain ⟨-, hc, hz, -, -, -⟩ := convertDocument_ok h
    rw [hc] at hpg
    rw [hz, zipEntries_get_succ] at he
    simp only [pdfPages] at hpg
    rw [List.getElem?_map] at hpg
    cases hx : (rasterize pdf cfg.dpi)[i]? with
    | none =>
      rw [hx] at hpg
      exact absurd hpg (by simp)
    | some x =>
      rw [hx] at hpg he
      have hpg2 : processPdfImage cfg.maxDim x = pg := by simpa using hpg
      have he2 : pageEntry cfg (sanitize_filename (splitextBase name)) i x = e := by
        simpa using he
      subst hpg2
      subst he2
      exact ⟨resizeArchiveStep cfg.maxDim x, rfl, rfl, rfl⟩

/-- Witness for C3 at a 3000 x 2000 page with bound 1920, and at the one-page
conversion of "d.pdf". -/
theorem c3_resize_paths_agree_witness :
    ((resizePdfStep (some 1920) (Img.raster 1 3000 2000)).width =
        (resizeArchiveStep (some 1920) (Img.raster 1 3000 2000)).width ∧
      (resizePdfStep (some 1920) (Img.raster 1 3000 2000)).height =
        (resizeArchiveStep (some 1920) (Img.raster 1 3000 2000)).height) ∧
    ∃ aimg : Img,
      encImage (RawBytes.imgEnc (Img.raster 0 5 5) PilFormat.WEBP 85 false) =
        some aimg ∧
      (Img.rgb (Img.raster 0 5 5)).width = aimg.width ∧
      (Img.rgb (Img.raster 0 5 5)).height = aimg.height :=
  ⟨c3_resize_paths_agree.1 (some 1920) (Img.raster 1 3000 2000),
    c3_resize_paths_agree.2 (fun _ _ => [Img.raster 0 5 5]) ⟨true, none, 200, 85⟩
      (("d.pdf").data) 0
      (ConversionResult.mk
        [((("d_compressed.pdf").data), RawBytes.pdfEnc [Img.rgb (Img.raster 0 5 5)]),
          ((("d_p_001.webp").data),
            RawBytes.imgEnc (Img.raster 0 5 5) PilFormat.WEBP 85 false)]
        (RawBytes.pdfEnc [Img.rgb (Img.raster 0 5 5)]) (("d").data) 1 5 5 true)
      (by decide) 0 (Img.rgb (Img.raster 0 5 5))
      ((("d_p_001.webp").data),
        RawBytes.imgEnc (Img.raster 0 5 5) PilFormat.WEBP 85 false)
      (by decide) (by decide)⟩

/-- Claim C10: the compressed-PDF bytes do not depend on the quality setting:
two conversions of the same raw PDF with the same output format, maximum
dimension and dpi but different quality values produce the same
compressed-PDF buffer (quality reaches only the per-page archive encodes). -/
theorem c10_pdf_bytes_quality_independent (rasterize : Nat → Nat → List Img)
    (fw : Bool) (d : Option Nat) (dpi q1 q2 : Nat) (name : List Char) (pdf : Nat) :
    Except.map (fun r : ConversionResult => r.compressed_pdf_bytes)
        (convertDocument rasterize (Config.mk fw d dpi q1) name pdf) =
      Except.map (fun r : ConversionResult => r.compressed_pdf_bytes)
        (convertDocument rasterize (Config.mk fw d dpi q2) name pdf) := by
  simp only [convertDocument]
  cases (rasterize pdf dpi).map (processPdfImage d) <;> rfl

/-- Claim C1 is violated by the code (a slip against the spec's "applied
identically to every artifact name"): converting "a:b.pdf" stores the
compressed PDF inside the ZIP under the raw name "a:b_compressed.pdf"
(src/app.py:112 uses `base_file_name`, not `sanitized_base_name`), while the
page entry is "a_b_p_001.webp" and the recorded base name is "a_b".  The raw
PDF entry name is not derived from the sanitized base name. -/
theorem c1_zip_pdf_entry_unsanitized :
    (convertDocument (fun _ _ => [Img.raster 0 8 8]) ⟨true, none, 200, 85⟩
          (("a:b.pdf").data) 0).toOption.map
        (fun r => (r.final_zip_bytes.map Prod.fst, r.base_file_name)) =
      some ([("a:b_compressed.pdf").data, ("a_b_p_001.webp").data], ("a_b").data) ∧
    ("a:b_compressed.pdf").data ≠
      sanitize_filename (("a:b").data) ++ ("_compressed.pdf").data := by
  exact ⟨by decide, by decide⟩

theorem mem_storeResult {k : List Char} {v : ConversionResult} :
    ∀ (m : List (List Char × ConversionResult)) (k0 : List Char)
      (v0 : ConversionResult), (k, v) ∈ storeResult m k0 v0 →
      (k, v) ∈ m ∨ (k = k0 ∧ v = v0)
  | [], k0, v0, h => by
    simp only [storeResult, List.mem_singleton, Prod.mk.injEq] at h
    exact Or.inr h
  | (k1, v1) :: rest, k0, v0, h => by
    by_cases hk : k1 = k0
    · simp only [storeResult, if_pos hk] at h
      rcases List.mem_cons.mp h with h1 | h1
      · simp only [Prod.mk.injEq] at h1
        exact Or.inr h1
      · exact Or.inl (List.mem_cons_of_mem _ h1)
    · simp only [storeResult, if_neg hk] at h
      rcases List.mem_cons.mp h with h1 | h1
      · exact Or.inl (h1 ▸ List.mem_cons_self _ _)
      · rcases mem_storeResult rest k0 v0 h1 with h2 | h2
        · exact Or.inl (List.mem_cons_of_mem _ h2)
        · exact Or.inr h2

theorem processBatch_mem_aux (rasterize : Nat → Nat → List Img) (cfg : Config) :
    ∀ (docs : List Document) (init : List (List Char × ConversionResult))
      (k : List Char) (v : ConversionResult),
      (k, v) ∈ docs.foldl (batchStep rasterize cfg) init →
      (k, v) ∈ init ∨ ∃ doc ∈ docs, doc.name = k ∧
        convertDocument rasterize cfg doc.name doc.pdfBytes = Except.ok v
  | [], init, k, v, h => Or.inl h
  | doc :: docs, init, k, v, h => by
    rw [List.foldl_cons] at h
    rcases processBatch_mem_aux rasterize cfg docs _ k v h with h1 | h1
    · cases hc : convertDocument rasterize cfg doc.name doc.pdfBytes with
      | ok r =>
        have hstep : batchStep rasterize cfg init doc = storeResult init doc.name r := by
          unfold batchStep
          rw [hc]
        rw [hstep] at h1
        rcases mem_storeResult _ _ _ h1 with h2 | h2
        · exact Or.inl h2
        · refine Or.inr ⟨doc, List.mem_cons_self _ _, h2.1.symm, ?_⟩
          rw [h2.2]
          exact hc
      | error e =>
        have hstep : batchStep rasterize cfg init doc = init := by
          unfold batchStep
          rw [hc]
        rw [hstep] at h1
        exact Or.inl h1
    · obtain ⟨d2, hd2, h3⟩ := h1
      exact Or.inr ⟨d2, List.mem_cons_of_mem _ hd2, h3⟩

/-- Claim C6: per-document failure isolation and atomicity of the batch loop:
a document whose conversion fails contributes nothing to the result store and
the batch outcome equals the outcome without it, and every stored result comes
from a document whose complete conversion succeeded (no partial artifact is
exposed). -/
theorem c6_per_document_isolation (rasterize : Nat → Nat → List Img)
    (cfg : Config) :
    (∀ (pre post : List Document) (bad : Document) (e : List Char),
      convertDocument rasterize cfg bad.name bad.pdfBytes = Except.error e →
      processBatch rasterize cfg (pre ++ bad :: post) =
        processBatch rasterize cfg (pre ++ post)) ∧
    (∀ (docs : List Document) (k : List Char) (v : ConversionResult),
      (k, v) ∈ processBatch rasterize cfg docs →
      ∃ doc ∈ docs, doc.name = k ∧
        convertDocument rasterize cfg doc.name doc.pdfBytes = Except.ok v) := by
  constructor
  · intro pre post bad e he
    unfold processBatch
    rw [List.foldl_append, List.foldl_append, List.foldl_cons]
    congr 1
    unfold batchStep
    rw [he]
  · intro docs k v h
    rcases processBatch_mem_aux rasterize cfg docs [] k v h with h1 | h1
    · exact absurd h1 (List.not_mem_nil _)
    · exact h1

/-- Witness for C6: a batch holding only the failing "bad.pdf" produces the
same (empty) store as the empty batch, and the stored result of the singleton
batch converting "d.pdf" comes from a successful conversion of "d.pdf". -/
theorem c6_per_document_isolation_witness :
    processBatch (fun _ _ => []) ⟨true, none, 200, 85⟩
        ([] ++ Document.mk (("bad.pdf").data) 0 :: []) =
      processBatch (fun _ _ => []) ⟨true, none, 200, 85⟩ ([] ++ []) ∧
    ∃ doc ∈ [Document.mk (("d.pdf").data) 0], doc.name = ("d.pdf").data ∧
      convertDocument (fun _ _ => [Img.raster 0 5 5]) ⟨true, none, 200, 85⟩
          doc.name doc.pdfBytes =
        Except.ok
          (ConversionResult.mk
            [((("d_compressed.pdf").data),
                RawBytes.pdfEnc [Img.rgb (Img.raster 0 5 5)]),
              ((("d_p_001.webp").data),
                RawBytes.imgEnc (Img.raster 0 5 5) PilFormat.WEBP 85 false)]
            (RawBytes.pdfEnc [Img.rgb (Img.raster 0 5 5)]) (("d").data) 1 5 5 true) :=
  ⟨(c6_per_document_isolation (fun _ _ => []) ⟨true, none, 200, 85⟩).1 [] []
      (Document.mk (("bad.pdf").data) 0) (("list index out of range").data)
      (by decide),
    (c6_per_document_isolation (fun _ _ => [Img.raster 0 5 5])
        ⟨true, none, 200, 85⟩).2 [Document.mk (("d.pdf").data) 0] (("d.pdf").data)
      (ConversionResult.mk
        [((("d_compressed.pdf").data), RawBytes.pdfEnc [Img.rgb (Img.raster 0 5 5)]),
          ((("d_p_001.webp").data),
            RawBytes.imgEnc (Img.raster 0 5 5) PilFormat.WEBP 85 false)]
        (RawBytes.pdfEnc [Img.rgb (Img.raster 0 5 5)]) (("d").data) 1 5 5 true)
      (by decide)⟩
